import Mathlib

/-!
Shallow embedding of the Termkan terminal graphics library
(src/math.rs, src/img.rs, src/input.rs, src/rds.rs) and proofs about it.

Rust i32 values are modelled as Int (no claim exercises wrap-around),
u8 components as Nat kept below 256 by construction, byte streams as
List Nat, and the pull-based byte iterators of the input module as an
explicit list of the subsequent bytes.
-/

namespace Termkan

/-- Two dimensional integer vector, src/math.rs Vec2 (i32 fields). -/
structure Vec2 where
  x : Int
  y : Int
deriving DecidableEq, Repr

/-- Vec2 addition, src/math.rs impl Add for Vec2. -/
def Vec2.add (a b : Vec2) : Vec2 := ⟨a.x + b.x, a.y + b.y⟩

/-- Vec2 subtraction, src/math.rs impl Sub for Vec2. -/
def Vec2.sub (a b : Vec2) : Vec2 := ⟨a.x - b.x, a.y - b.y⟩

/-- Compound subtraction, src/math.rs impl SubAssign for Vec2.
The body of the source is literally `*self = *self + rhs;`. -/
def Vec2.sub_assign (a b : Vec2) : Vec2 := Vec2.add a b

/-- RGB color, src/img.rs Color (u8 fields, modelled as Nat < 256). -/
structure Color where
  r : Nat
  g : Nat
  b : Nat
deriving DecidableEq, Repr

/-- Color::hex, src/img.rs: masks out the three bytes of 0xRRGGBB. -/
def Color.hex (h : Nat) : Color :=
  ⟨(h &&& 0xFF0000) / 0x10000, (h &&& 0xFF00) / 0x100, (h &&& 0xFF) / 1⟩

/-- Color::rgb constructor, src/img.rs. -/
def Color.rgb (r g b : Nat) : Color := ⟨r, g, b⟩

def Color.BLACK : Color := Color.hex 0x000000

def Color.WHITE : Color := Color.hex 0xffffff

def Color.RED : Color := Color.hex 0xff0000

def Color.BLUE : Color := Color.hex 0x0000ff

/-- Canvas, src/img.rs Image: row-major color array plus its size. -/
structure Image where
  data : List Color
  size : Vec2
deriving DecidableEq, Repr

/-- Image::new, src/img.rs: all-black w*h canvas. -/
def Image.new (w h : Nat) : Image :=
  ⟨List.replicate (w * h) Color.BLACK, ⟨(w : Int), (h : Int)⟩⟩

/-- Image::out_of_range, src/img.rs line 226. -/
def Image.out_of_range (img : Image) (p : Vec2) : Bool :=
  decide (p.x < 0) || decide (p.y < 0) ||
  decide (img.size.x ≤ p.x) || decide (img.size.y ≤ p.y)

/-- Flat row-major index used by both Index impls, src/img.rs. -/
def Image.idx (img : Image) (p : Vec2) : Nat :=
  (p.x + p.y * img.size.x).toNat

/-- Reading a cell: impl Index for Image, src/img.rs lines 374-384.
Out-of-range reads return the black sentinel. -/
def Image.get (img : Image) (p : Vec2) : Color :=
  if img.out_of_range p then Color.BLACK
  else img.data.getD (img.idx p) Color.BLACK

/-- Writing a cell: Image::point via impl IndexMut, src/img.rs.
Out-of-range writes go to a scratch cell, i.e. do not change the image. -/
def Image.point (img : Image) (p : Vec2) (c : Color) : Image :=
  if img.out_of_range p then img
  else { img with data := img.data.set (img.idx p) c }

/-- Image::resize, src/img.rs lines 219-223: `Vec::resize(w*h, BLACK)`
keeps the existing prefix and pads (or truncates) to the new length. -/
def Image.resize (img : Image) (w h : Nat) : Image :=
  { data :=
      if w * h ≤ img.data.length then img.data.take (w * h)
      else img.data ++ List.replicate (w * h - img.data.length) Color.BLACK,
    size := ⟨(w : Int), (h : Int)⟩ }

/-- Image::clear, src/img.rs: sets every existing cell to c. -/
def Image.clear (img : Image) (c : Color) : Image :=
  { img with data := List.replicate img.data.length c }

/-- Inner column loop of Image::rect, src/img.rs lines 294-299:
`for i in 0..s.x.abs() { let x = p.x + i*dx; if x >= size.x break; write }`. -/
def Image.rectRow (img : Image) (px dx y : Int) (c : Color) : List Nat → Image
  | [] => img
  | i :: rest =>
    let x := px + (i : Int) * dx
    if img.size.x ≤ x then img
    else Image.rectRow (img.point ⟨x, y⟩ c) px dx y c rest

/-- Outer row loop of Image::rect, src/img.rs lines 291-300. -/
def Image.rectRows (img : Image) (px py dx dy : Int) (sx : Nat) (c : Color) :
    List Nat → Image
  | [] => img
  | j :: rest =>
    let y := py + (j : Int) * dy
    if img.size.y ≤ y then img
    else Image.rectRows (Image.rectRow img px dx y c (List.range sx))
      px py dx dy sx c rest

/-- Image::rect, src/img.rs lines 275-301, including the negative-anchor
clamping `s.x += p.x - 1; p.x = 0` (and likewise for y). -/
def Image.rect (img : Image) (p s : Vec2) (c : Color) : Image :=
  let px := if p.x < 0 then 0 else p.x
  let sx := if p.x < 0 then s.x + p.x - 1 else s.x
  let py := if p.y < 0 then 0 else p.y
  let sy := if p.y < 0 then s.y + p.y - 1 else s.y
  let dx : Int := if 0 < sx then 1 else -1
  let dy : Int := if 0 < sy then 1 else -1
  Image.rectRows img px py dx dy sx.natAbs c (List.range sy.natAbs)

/-! ## Input events and decoder, src/input.rs.
Characters are modelled by their Unicode codepoint (Nat).  A Rust panic
(an `unwrap()` of None or of a failed numeric parse) is a distinct result
from an `Err` parse failure. -/

/-- src/input.rs KeyEvent. -/
inductive KeyEvent where
  | Backspace
  | Left
  | Right
  | Up
  | Down
  | Home
  | End
  | PageUp
  | PageDown
  | BackTab
  | Delete
  | Insert
  | F (n : Nat)
  | Char (c : Nat)
  | Alt (c : Nat)
  | Ctrl (c : Nat)
  | Null
  | Esc
deriving DecidableEq, Repr

/-- src/input.rs MouseButton. -/
inductive MouseButton where
  | Left
  | Right
  | Middle
  | WheelUp
  | WheelDown
deriving DecidableEq, Repr

/-- src/input.rs MouseEvent. -/
inductive MouseEvent where
  | ButtonPressed (b : MouseButton) (p : Vec2)
  | ButtonReleased (b : MouseButton) (p : Vec2)
  | Hold (b : MouseButton) (p : Vec2)
deriving DecidableEq, Repr

/-- src/input.rs InputEvent. -/
inductive InputEvent where
  | Key (k : KeyEvent)
  | Mouse (m : MouseEvent)
  | Unsupported (bytes : List Nat)
deriving DecidableEq, Repr

/-- src/input.rs get_real_mouse_pos: character coords to pixel coords. -/
def get_real_mouse_pos (cx cy : Nat) : Vec2 :=
  ⟨(cx : Int) - 1, 2 * (cy : Int) - 2⟩

/-- Result of parse_csi: a recognized event, an unrecognized sequence
(the Rust `return None`), or a Rust panic from an `unwrap()`. -/
inductive CsiResult where
  | evt (e : InputEvent)
  | unrecognized
  | fatal
deriving DecidableEq, Repr

/-- Result of parse_event: Ok(event), Err(parse failure), or a panic. -/
inductive PResult where
  | ok (e : InputEvent)
  | err
  | fatal
deriving DecidableEq, Repr

/-- Reads bytes until one satisfying stop; returns collected bytes, the
terminator, and the remaining input.  None models the `unwrap()` panic
when the source runs dry (the loops at src/input.rs lines 192-199 and
246-252). -/
def takeUntil (stop : Nat → Bool) : List Nat → Option (List Nat × Nat × List Nat)
  | [] => none
  | b :: rest =>
    if stop b then some ([], b, rest)
    else
      match takeUntil stop rest with
      | some (buf, f, r) => some (b :: buf, f, r)
      | none => none

/-- Rust str split on the semicolon byte 59; empty input yields one
empty field, like `"".split(';')`. -/
def splitSemis : List Nat → List (List Nat)
  | [] => [[]]
  | b :: rest =>
    let r := splitSemis rest
    if b = 59 then [] :: r
    else
      match r with
      | f :: more => (b :: f) :: more
      | [] => [[b]]

/-- Decimal digit groups as parsed by Rust `str::parse::<uN>()`: an
optional leading plus sign, at least one ASCII digit, value below
2^width (overflow is a parse error). -/
def parseUIntStr (width : Nat) (l : List Nat) : Option Nat :=
  let digits := match l with
    | 43 :: rest => rest
    | _ => l
  match digits with
  | [] => none
  | _ =>
    let v? := digits.foldl (fun acc b =>
      match acc with
      | some a => if 48 ≤ b ∧ b ≤ 57 then some (a * 10 + (b - 48)) else none
      | none => none) (some 0)
    match v? with
    | some v => if v < 2 ^ width then some v else none
    | none => none

/-- Whole-buffer UTF-8 validity with the decoded scalar value, as
`str::from_utf8` sees the scratch buffer of parse_utf8_char: exactly one
well-formed character (overlong encodings and surrogates rejected). -/
def utf8Decode : List Nat → Option Nat
  | [b0] => if b0 < 128 then some b0 else none
  | [b0, b1] =>
    if 194 ≤ b0 ∧ b0 ≤ 223 ∧ 128 ≤ b1 ∧ b1 ≤ 191 then
      some ((b0 - 192) * 64 + (b1 - 128))
    else none
  | [b0, b1, b2] =>
    if ((b0 = 224 ∧ 160 ≤ b1 ∧ b1 ≤ 191) ∨
        (225 ≤ b0 ∧ b0 ≤ 236 ∧ 128 ≤ b1 ∧ b1 ≤ 191) ∨
        (b0 = 237 ∧ 128 ≤ b1 ∧ b1 ≤ 159) ∨
        (238 ≤ b0 ∧ b0 ≤ 239 ∧ 128 ≤ b1 ∧ b1 ≤ 191)) ∧
       128 ≤ b2 ∧ b2 ≤ 191 then
      some ((b0 - 224) * 4096 + (b1 - 128) * 64 + (b2 - 128))
    else none
  | [b0, b1, b2, b3] =>
    if ((b0 = 240 ∧ 144 ≤ b1 ∧ b1 ≤ 191) ∨
        (241 ≤ b0 ∧ b0 ≤ 243 ∧ 128 ≤ b1 ∧ b1 ≤ 191) ∨
        (b0 = 244 ∧ 128 ≤ b1 ∧ b1 ≤ 143)) ∧
       128 ≤ b2 ∧ b2 ≤ 191 ∧ 128 ≤ b3 ∧ b3 ≤ 191 then
      some ((b0 - 240) * 262144 + (b1 - 128) * 4096 + (b2 - 128) * 64 + (b3 - 128))
    else none
  | _ => none

/-- src/input.rs parse_utf8_char: ASCII passes through; otherwise bytes
are pulled one at a time until the scratch buffer is valid UTF-8,
failing once four bytes accumulate without validity or the source ends. -/
def parse_utf8_char (c : Nat) (input : List Nat) : Option Nat :=
  if c < 128 then some c
  else
    match input with
    | [] => none
    | b1 :: r1 =>
      match utf8Decode [c, b1] with
      | some ch => some ch
      | none =>
        match r1 with
        | [] => none
        | b2 :: r2 =>
          match utf8Decode [c, b1, b2] with
          | some ch => some ch
          | none =>
            match r2 with
            | [] => none
            | b3 :: _ =>
              match utf8Decode [c, b1, b2, b3] with
              | some ch => some ch
              | none => none

/-- The X10 mouse branch of parse_csi, src/input.rs lines 159-187.
cb is `next() as i8 - 32` with wrap-around; the bitwise tests
`cb & 0b11` and `cb & 0x40` act on its 8-bit pattern, so we keep the
pattern `(b1 - 32) mod 256` directly.  cx and cy use saturating_sub,
which Nat subtraction models exactly. -/
def parse_csi_x10 (b1 b2 b3 : Nat) : CsiResult :=
  let cb := (b1 % 256 + 256 - 32) % 256
  let cx := b2 - 32
  let cy := b3 - 32
  if cb % 4 = 0 then
    if cb &&& 64 ≠ 0 then
      .evt (.Mouse (.ButtonPressed .WheelUp (get_real_mouse_pos cx cy)))
    else
      .evt (.Mouse (.ButtonPressed .Left (get_real_mouse_pos cx cy)))
  else if cb % 4 = 1 then
    if cb &&& 64 ≠ 0 then
      .evt (.Mouse (.ButtonPressed .WheelDown (get_real_mouse_pos cx cy)))
    else
      .evt (.Mouse (.ButtonPressed .Middle (get_real_mouse_pos cx cy)))
  else if cb % 4 = 2 then
    .evt (.Mouse (.ButtonPressed .Right (get_real_mouse_pos cx cy)))
  else
    .evt (.Mouse (.ButtonReleased .Left (get_real_mouse_pos cx cy)))

/-- The SGR (xterm `<`) mouse branch of parse_csi, src/input.rs lines
188-241, after the byte buffer has been collected up to the final m/M.
The `String::from_utf8(..).unwrap()` and `parse::<u16>().unwrap()` calls
both panic on malformed input, which this models uniformly as fatal
(digit strings that parse are always valid UTF-8). -/
def parse_csi_sgr (buf : List Nat) (fin : Nat) : CsiResult :=
  let fields := splitSemis buf
  match fields.get? 0, fields.get? 1, fields.get? 2 with
  | some f0, some f1, some f2 =>
    match parseUIntStr 16 f0, parseUIntStr 16 f1, parseUIntStr 16 f2 with
    | some cb, some cx, some cy =>
      if cb ≤ 2 ∨ (64 ≤ cb ∧ cb ≤ 65) then
        let button :=
          if cb = 0 then MouseButton.Left
          else if cb = 1 then MouseButton.Middle
          else if cb = 2 then MouseButton.Right
          else if cb = 64 then MouseButton.WheelUp
          else MouseButton.WheelDown
        if fin = 77 then
          .evt (.Mouse (.ButtonPressed button (get_real_mouse_pos cx cy)))
        else if fin = 109 then
          .evt (.Mouse (.ButtonReleased .Left (get_real_mouse_pos cx cy)))
        else .unrecognized
      else if cb = 32 then
        .evt (.Mouse (.Hold .Left (get_real_mouse_pos cx cy)))
      else if cb = 3 then
        .evt (.Mouse (.ButtonReleased .Left (get_real_mouse_pos cx cy)))
      else .unrecognized
    | _, _, _ => .fatal
  | _, _, _ => .fatal

/-- The rxvt numbered mouse branch, src/input.rs lines 257-279: the buffer
splits into `;`-separated u16 values (parse failure or a missing value
panics via unwrap/indexing), then cb selects the event. -/
def parse_csi_rxvt (buf : List Nat) : CsiResult :=
  let nums := (splitSemis buf).map (parseUIntStr 16)
  if nums.any Option.isNone then .fatal
  else
    let vals := nums.map (fun o => o.getD 0)
    match vals.get? 0, vals.get? 1, vals.get? 2 with
    | some cb, some cx, some cy =>
      if cb = 32 then .evt (.Mouse (.ButtonPressed .Left (get_real_mouse_pos cx cy)))
      else if cb = 33 then .evt (.Mouse (.ButtonPressed .Middle (get_real_mouse_pos cx cy)))
      else if cb = 34 then .evt (.Mouse (.ButtonPressed .Right (get_real_mouse_pos cx cy)))
      else if cb = 35 then .evt (.Mouse (.ButtonReleased .Left (get_real_mouse_pos cx cy)))
      else if cb = 64 then .evt (.Mouse (.Hold .Left (get_real_mouse_pos cx cy)))
      else if cb = 96 ∨ cb = 97 then
        .evt (.Mouse (.ButtonPressed .WheelUp (get_real_mouse_pos cx cy)))
      else .unrecognized
    | _, _, _ => .fatal

/-- The special-key table of the `~` branch, src/input.rs lines 298-309:
the match on nums[0]. -/
def special_key_code (v : Nat) : CsiResult :=
  if v = 1 ∨ v = 7 then .evt (.Key .Home)
  else if v = 2 then .evt (.Key .Insert)
  else if v = 3 then .evt (.Key .Delete)
  else if v = 4 ∨ v = 8 then .evt (.Key .End)
  else if v = 5 then .evt (.Key .PageUp)
  else if v = 6 then .evt (.Key .PageDown)
  else if 11 ≤ v ∧ v ≤ 15 then .evt (.Key (.F (v - 10)))
  else if 17 ≤ v ∧ v ≤ 21 then .evt (.Key (.F (v - 11)))
  else if 23 ≤ v ∧ v ≤ 24 then .evt (.Key (.F (v - 12)))
  else .unrecognized

/-- The emptiness and multi-value checks of the `~` branch,
src/input.rs lines 288-296, applied to the parsed values. -/
def tilde_keys (vals : List Nat) : CsiResult :=
  if vals.isEmpty then .unrecognized
  else if 1 < vals.length then .unrecognized
  else
    match vals.get? 0 with
    | some v => special_key_code v
    | none => .fatal

/-- The special-key `~` branch, src/input.rs lines 281-309: `;`-separated
u8 values (a parse failure panics via unwrap), then the checks and the
key table of tilde_keys. -/
def parse_csi_tilde (buf : List Nat) : CsiResult :=
  let nums := (splitSemis buf).map (parseUIntStr 8)
  if nums.any Option.isNone then .fatal
  else tilde_keys (nums.map (fun o => o.getD 0))

/-- The numbered escape branch, src/input.rs lines 242-313: collect
bytes until a final byte in 64..126 (running dry panics), then dispatch
on the final byte: M is the rxvt mouse encoding, tilde a special key. -/
def parse_csi_numbered (b : Nat) (rest : List Nat) : CsiResult :=
  match takeUntil (fun x => 64 ≤ x && x ≤ 126) rest with
  | some (buf2, fin, _) =>
    if fin = 77 then parse_csi_rxvt (b :: buf2)
    else if fin = 126 then parse_csi_tilde (b :: buf2)
    else .unrecognized
  | none => .fatal

/-- src/input.rs parse_csi, lines 144-316: dispatch on the byte after
`ESC [`.  The byte values: 91 is left bracket, 65-70 are A-F, 72 H, 90 Z,
77 M, 60 is the less-than sign, 48-57 are the digits, 126 is tilde. -/
def parse_csi (input : List Nat) : CsiResult :=
  match input with
  | [] => .unrecognized
  | b :: rest =>
    if b = 91 then
      match rest with
      | v :: _ =>
        if 65 ≤ v ∧ v ≤ 69 then .evt (.Key (.F (1 + v - 65))) else .unrecognized
      | [] => .unrecognized
    else if b = 68 then .evt (.Key .Left)
    else if b = 67 then .evt (.Key .Right)
    else if b = 65 then .evt (.Key .Up)
    else if b = 66 then .evt (.Key .Down)
    else if b = 72 then .evt (.Key .Home)
    else if b = 70 then .evt (.Key .End)
    else if b = 90 then .evt (.Key .BackTab)
    else if b = 77 then
      match rest with
      | b1 :: b2 :: b3 :: _ => parse_csi_x10 b1 b2 b3
      | _ => .fatal
    else if b = 60 then
      match takeUntil (fun x => x = 109 || x = 77) rest with
      | some (buf, fin, _) => parse_csi_sgr buf fin
      | none => .fatal
    else if 48 ≤ b ∧ b ≤ 57 then parse_csi_numbered b rest
    else .unrecognized

/-- src/input.rs parse_event, lines 99-138: dispatch on the first byte.
27 is ESC, 79 is O, 80-83 are P-S, 91 is the left bracket; the control
byte ranges mirror the Rust match arms in order. -/
def parse_event (item : Nat) (input : List Nat) : PResult :=
  if item = 27 then
    match input with
    | [] => .err
    | b :: rest =>
      if b = 79 then
        match rest with
        | v :: _ => if 80 ≤ v ∧ v ≤ 83 then .ok (.Key (.F (1 + v - 80))) else .err
        | [] => .err
      else if b = 91 then
        match parse_csi rest with
        | .evt e => .ok e
        | .unrecognized => .err
        | .fatal => .fatal
      else
        match parse_utf8_char b rest with
        | some ch => .ok (.Key (.Alt ch))
        | none => .err
  else if item = 10 ∨ item = 13 then .ok (.Key (.Char 10))
  else if item = 9 then .ok (.Key (.Char 9))
  else if item = 127 then .ok (.Key .Backspace)
  else if 1 ≤ item ∧ item ≤ 26 then .ok (.Key (.Ctrl (item - 1 + 97)))
  else if 28 ≤ item ∧ item ≤ 31 then .ok (.Key (.Ctrl (item - 28 + 52)))
  else if item = 0 then .ok (.Key .Null)
  else
    match parse_utf8_char item input with
    | some ch => .ok (.Key (.Char ch))
    | none => .err

/-! ## Input listener, src/input.rs Input::init lines 378-403. -/

/-- One iteration of the listener loop body on a decoded event: the
last-pressed-button state is updated on ButtonPressed and substituted
into ButtonReleased and Hold before publishing. -/
def listenStep (mb : MouseButton) (evt : InputEvent) : MouseButton × InputEvent :=
  match evt with
  | .Mouse (.ButtonPressed b _) => (b, evt)
  | .Mouse (.ButtonReleased _ pos) => (mb, .Mouse (.ButtonReleased mb pos))
  | .Mouse (.Hold _ pos) => (mb, .Mouse (.Hold mb pos))
  | _ => (mb, evt)

/-- The list of events the listener publishes for a list of decoded
events, threading the last-pressed-button state. -/
def listenRun (mb : MouseButton) : List InputEvent → List InputEvent
  | [] => []
  | e :: es => (listenStep mb e).2 :: listenRun (listenStep mb e).1 es

/-- The last-pressed-button state after the listener consumes a list. -/
def listenFinal (mb : MouseButton) : List InputEvent → MouseButton
  | [] => mb
  | e :: es => listenFinal (listenStep mb e).1 es

/-- Whether a decoded event is a ButtonPressed mouse event. -/
def isPressEvent : InputEvent → Bool
  | .Mouse (.ButtonPressed _ _) => true
  | _ => false

/-! ## Renderer facade, src/rds.rs. -/

/-- src/rds.rs RenderingDirective. -/
inductive RenderingDirective where
  | DrawLine (p1 p2 : Vec2) (c : Color)
  | DrawRect (p s : Vec2) (c : Color)
  | DrawRectBoudary (p s : Vec2) (c : Color)
  | DrawEllipseBoudary (center s : Vec2) (c : Color)
  | DrawPoint (p : Vec2) (c : Color)
  | ClearScreen (c : Color)
  | UpdateScreenSize (size : Vec2)
  | BeginFrame
  | PushFrame
deriving DecidableEq, Repr

/-- The facade state the bracket checks consult: building_frame and
prev_screen_size, src/rds.rs Renderer struct lines 99-100. -/
structure RendererState where
  building_frame : Bool
  prev_screen_size : Vec2
deriving DecidableEq, Repr

/-- src/rds.rs Renderer::can_draw lines 286-288: panics (error) when no
frame is being built. -/
def can_draw (st : RendererState) : Except String Unit :=
  if !st.building_frame then
    .error "drawing outside of a frame build (call begin_draw)"
  else .ok ()

/-- src/rds.rs Renderer::draw_point: bracket check then enqueue. -/
def draw_point (st : RendererState) (p : Vec2) (c : Color) :
    Except String (RendererState × List RenderingDirective) :=
  match can_draw st with
  | .error e => .error e
  | .ok _ => .ok (st, [.DrawPoint p c])

/-- src/rds.rs Renderer::draw_line. -/
def draw_line (st : RendererState) (p1 p2 : Vec2) (c : Color) :
    Except String (RendererState × List RenderingDirective) :=
  match can_draw st with
  | .error e => .error e
  | .ok _ => .ok (st, [.DrawLine p1 p2 c])

/-- src/rds.rs Renderer::draw_rect. -/
def draw_rect (st : RendererState) (p s : Vec2) (c : Color) :
    Except String (RendererState × List RenderingDirective) :=
  match can_draw st with
  | .error e => .error e
  | .ok _ => .ok (st, [.DrawRect p s c])

/-- src/rds.rs Renderer::draw_rect_boundary. -/
def draw_rect_boundary (st : RendererState) (p s : Vec2) (c : Color) :
    Except String (RendererState × List RenderingDirective) :=
  match can_draw st with
  | .error e => .error e
  | .ok _ => .ok (st, [.DrawRectBoudary p s c])

/-- src/rds.rs Renderer::draw_ellipse_boundary. -/
def draw_ellipse_boundary (st : RendererState) (center s : Vec2) (c : Color) :
    Except String (RendererState × List RenderingDirective) :=
  match can_draw st with
  | .error e => .error e
  | .ok _ => .ok (st, [.DrawEllipseBoudary center s c])

/-- src/rds.rs Renderer::clear_screen. -/
def clear_screen (st : RendererState) (c : Color) :
    Except String (RendererState × List RenderingDirective) :=
  match can_draw st with
  | .error e => .error e
  | .ok _ => .ok (st, [.ClearScreen c])

/-- src/rds.rs Renderer::begin_draw lines 294-307: panics when already
building; otherwise sends a resize directive when the terminal size
changed, then BeginFrame.  The terminal size query is an external input
passed as new_size. -/
def begin_draw (st : RendererState) (new_size : Vec2) :
    Except String (RendererState × List RenderingDirective) :=
  if st.building_frame then
    .error "begin_draw called when already building a frame"
  else if st.prev_screen_size ≠ new_size then
    .ok (⟨true, new_size⟩, [.UpdateScreenSize new_size, .BeginFrame])
  else
    .ok (⟨true, st.prev_screen_size⟩, [.BeginFrame])

/-- src/rds.rs Renderer::end_draw lines 311-317: panics when no frame is
being built; otherwise clears building_frame and sends PushFrame. -/
def end_draw (st : RendererState) :
    Except String (RendererState × List RenderingDirective) :=
  if !st.building_frame then
    .error "end_draw called when already building a frame"
  else .ok (⟨false, st.prev_screen_size⟩, [.PushFrame])

/-- begin_draw immediately followed by end_draw, returning the final
facade state. -/
def begin_then_end (st : RendererState) (new_size : Vec2) :
    Except String RendererState :=
  match begin_draw st new_size with
  | .error e => .error e
  | .ok (st1, _) =>
    match end_draw st1 with
    | .error e => .error e
    | .ok (st2, _) => .ok st2

/-! ## Flush algorithm: the PushFrame arm of the rendering server loop,
src/rds.rs lines 171-226. -/

/-- The four half-block cell glyphs. -/
inductive Glyph where
  | space
  | lower
  | upper
  | full
deriving DecidableEq, Repr

/-- One unit of terminal output emitted during a flush. -/
inductive OutItem where
  | home
  | escFore (c : Color)
  | escBack (c : Color)
  | repos (row col : Int)
  | glyph (g : Glyph)
deriving DecidableEq, Repr

def OutItem.isColorEsc : OutItem → Bool
  | .escFore _ => true
  | .escBack _ => true
  | _ => false

def OutItem.isGlyph : OutItem → Bool
  | .glyph _ => true
  | _ => false

/-- The color update chain, src/rds.rs lines 187-205: given the two cell
colors and the cached active fore/back, returns the new fore, the new
back and the escape sequences emitted, following the else-if chain of
the source in order. -/
def colorUpdate (s1 s2 fore back : Color) : Color × Color × List OutItem :=
  if s1 ≠ back ∧ s1 ≠ fore ∧ s2 = back then
    (s1, back, [.escFore s1])
  else if s1 ≠ back ∧ s1 ≠ fore ∧ s2 = fore then
    (fore, s1, [.escBack s1])
  else if s2 ≠ back ∧ s2 ≠ fore ∧ s1 = back then
    (s2, back, [.escFore s2])
  else if s2 ≠ back ∧ s2 ≠ fore ∧ s1 = fore then
    (fore, s2, [.escBack s2])
  else if s1 ≠ back ∧ s1 ≠ fore ∧ s2 ≠ back ∧ s2 ≠ fore then
    (s1, s2, [.escFore s1, .escBack s2])
  else
    (fore, back, [])

/-- The glyph chain, src/rds.rs lines 213-221: the first matching branch
of the four prints its glyph; when none matches nothing is printed. -/
def glyphFor (s1 s2 fore back : Color) : Option Glyph :=
  if s1 = back ∧ s2 = back then some .space
  else if s1 = back ∧ s2 = fore then some .lower
  else if s1 = fore ∧ s2 = back then some .upper
  else if s1 = fore ∧ s2 = fore then some .full
  else none

/-- Mutable state threaded through the cell loop: cached colors and the
skiped flag. -/
structure FlushState where
  fore : Color
  back : Color
  skiped : Bool
deriving DecidableEq, Repr

/-- The unchanged-cell test, src/rds.rs line 182. -/
def skipTest (screen prev : Image) (pos1 pos2 : Vec2) : Bool :=
  decide (screen.size = prev.size) &&
  decide (screen.get pos1 = prev.get pos1) &&
  decide (screen.get pos2 = prev.get pos2)

/-- Processing of one character cell `(i, j)`, src/rds.rs lines 178-221:
skip when unchanged, otherwise update colors, reposition the cursor if
resuming after a skip, and print one half-block glyph.  The source emits
the color escapes before the reposition escape, which this preserves. -/
def flushCell (screen prev : Image) (st : FlushState) (i j : Int) :
    FlushState × List OutItem :=
  let pos1 : Vec2 := ⟨i, j⟩
  let pos2 : Vec2 := ⟨i, j + 1⟩
  if skipTest screen prev pos1 pos2 then
    ({ st with skiped := true }, [])
  else
    let s1 := screen.get pos1
    let s2 := screen.get pos2
    let fb := colorUpdate s1 s2 st.fore st.back
    let repositions := if st.skiped then [OutItem.repos (j / 2 + 1) (i + 1)] else []
    let glyphs :=
      match glyphFor s1 s2 fb.1 fb.2.1 with
      | some g => [OutItem.glyph g]
      | none => []
    (⟨fb.1, fb.2.1, false⟩, fb.2.2 ++ repositions ++ glyphs)

/-- The traversal order of the double loop, src/rds.rs lines 177-178:
row pairs j = 0, 2, 4, ... below screen_size.y, columns i = 0 ...
screen_size.x - 1. -/
def cellPositions (sz : Vec2) : List (Int × Int) :=
  (List.range ((sz.y.toNat + 1) / 2)).flatMap (fun k =>
    (List.range sz.x.toNat).map (fun i => ((i : Int), (2 * k : Int))))

/-- Folding flushCell over a list of cell positions. -/
def flushCells (screen prev : Image) :
    FlushState → List (Int × Int) → FlushState × List OutItem
  | st, [] => (st, [])
  | st, (i, j) :: rest =>
    let r1 := flushCell screen prev st i j
    let r2 := flushCells screen prev r1.1 rest
    (r2.1, r1.2 ++ r2.2)

/-- Result of one whole flush: the new previous canvas (the source ends
with `prev_screen = screen.clone()`), the cached colors, and the output. -/
structure FlushResult where
  prev : Image
  fore : Color
  back : Color
  out : List OutItem
deriving DecidableEq, Repr

/-- One whole PushFrame flush, src/rds.rs lines 171-226: home the cursor,
process every character cell, then adopt the current canvas as the
previous one. -/
def flushFrame (sz : Vec2) (screen prevImg : Image) (fore back : Color) :
    FlushResult :=
  let r := flushCells screen prevImg ⟨fore, back, false⟩ (cellPositions sz)
  ⟨screen, r.1.fore, r.1.back, OutItem.home :: r.2⟩

/-! ## Helper predicates and lemmas shared by the theorems. -/

/-- Whether an Except value is a success. -/
def exceptIsOk {α : Type} : Except String α → Bool
  | .ok _ => true
  | .error _ => false

/-! ## Theorems for the claims. -/

/-- Claim C9: the claim says `a -= b` leaves a equal to the componentwise
difference a - b.  The code (src/math.rs line 101) computes `*self + rhs`
instead: at a = (0,0), b = (1,2) compound subtraction yields (1,2),
the sum, while the difference is (-1,-2). -/
theorem sub_assign_adds_instead_of_subtracting :
    Vec2.sub_assign ⟨0, 0⟩ ⟨1, 2⟩ = ⟨1, 2⟩
  ∧ Vec2.sub ⟨0, 0⟩ ⟨1, 2⟩ = ⟨-1, -2⟩
  ∧ Vec2.add ⟨0, 0⟩ ⟨1, 2⟩ = ⟨1, 2⟩
  ∧ Vec2.sub_assign ⟨0, 0⟩ ⟨1, 2⟩ ≠ Vec2.sub ⟨0, 0⟩ ⟨1, 2⟩ := by
  refine ⟨rfl, rfl, rfl, ?_⟩
  decide

/-- Claim C3: the claim says rect((-3,5),(10,4)) on a 20-wide canvas of
height 9 colors exactly columns [0,7) of rows [5,9).  The clamping in
src/img.rs line 280 is `s.x += p.x - 1`, one more than the off-canvas
amount, so the code colors exactly columns [0,6) of rows [5,9): every
cell of the canvas is white iff its column is below 6 and its row is in
[5,9), and in particular the claimed cell (6,5) stays black. -/
theorem rect_neg_anchor_shrinks_one_extra_column :
    (∀ x : Nat, x < 20 → ∀ y : Nat, y < 9 →
      ((Image.new 20 9).rect ⟨-3, 5⟩ ⟨10, 4⟩ Color.WHITE).get ⟨(x : Int), (y : Int)⟩
        = if x < 6 ∧ 5 ≤ y then Color.WHITE else Color.BLACK)
  ∧ ((Image.new 20 9).rect ⟨-3, 5⟩ ⟨10, 4⟩ Color.WHITE).get ⟨6, 5⟩ = Color.BLACK
  ∧ Color.WHITE ≠ Color.BLACK := by
  decide

/-- Claim C4, counterexample: the claim says every in-range read after
resize returns black.  On a 1-by-1 canvas whose cell was set white,
resize(2,1) keeps the old cell (Vec::resize preserves the prefix,
src/img.rs line 220), so the read returns white. -/
theorem resize_keeps_old_cell :
    (((Image.new 1 1).point ⟨0, 0⟩ Color.WHITE).resize 2 1).get ⟨0, 0⟩ = Color.WHITE
  ∧ Color.WHITE ≠ Color.BLACK := by
  decide

/-- Claim C5: byte sequence ESC [ A decodes to Key(Up), and byte
sequence ESC [ < 0 ; 5 ; 10 M decodes to a left-button press at pixel
position (4, 18) = (col - 1, 2 row - 2) for col = 5, row = 10. -/
theorem decoder_scenarios :
    parse_event 27 [91, 65] = .ok (.Key .Up)
  ∧ parse_event 27 [91, 60, 48, 59, 53, 59, 49, 48, 77]
      = .ok (.Mouse (.ButtonPressed .Left ⟨4, 18⟩)) := by
  constructor
  · rfl
  · rfl

/-- Claim C8: each of the six draw operations fails when no frame is
being built, begin_draw fails while a frame is being built, and
begin_draw followed by end_draw returns the facade to the not-building
state. -/
theorem frame_bracket_enforced (sz szNew p q s : Vec2) (c : Color) :
    exceptIsOk (draw_point ⟨false, sz⟩ p c) = false
  ∧ exceptIsOk (draw_line ⟨false, sz⟩ p q c) = false
  ∧ exceptIsOk (draw_rect ⟨false, sz⟩ p s c) = false
  ∧ exceptIsOk (draw_rect_boundary ⟨false, sz⟩ p s c) = false
  ∧ exceptIsOk (draw_ellipse_boundary ⟨false, sz⟩ p s c) = false
  ∧ exceptIsOk (clear_screen ⟨false, sz⟩ c) = false
  ∧ exceptIsOk (begin_draw ⟨true, sz⟩ szNew) = false
  ∧ ∃ st2, begin_then_end ⟨false, sz⟩ szNew = .ok st2 ∧ st2.building_frame = false := by
  refine ⟨rfl, rfl, rfl, rfl, rfl, rfl, rfl, ?_⟩
  by_cases h : sz = szNew
  · exact ⟨⟨false, sz⟩, by simp [begin_then_end, begin_draw, end_draw, h], rfl⟩
  · exact ⟨⟨false, szNew⟩, by simp [begin_then_end, begin_draw, end_draw, h], rfl⟩

/-- In-range coordinates give a flat index below width times height. -/
lemma idx_lt_area {sx sy x y : Int} (hx0 : 0 ≤ x) (hx : x < sx)
    (hy0 : 0 ≤ y) (hy : y < sy) :
    (x + y * sx).toNat < (sx * sy).toNat := by
  have hsx : 0 ≤ sx := le_trans hx0 hx.le
  have h1 : (y + 1) * sx ≤ sy * sx :=
    mul_le_mul_of_nonneg_right (by omega) hsx
  have h2 : x + y * sx < sx * sy := by nlinarith
  have h0 : 0 ≤ x + y * sx := by
    have := mul_nonneg hy0 hsx
    omega
  omega

/-- Claim C6: out-of-range writes are no-ops and out-of-range reads
return black; an in-range write followed by a read at the same
coordinate returns exactly the written color.  The hypothesis is the
canvas invariant data.length = width * height, which every constructor
and mutation of the source maintains. -/
theorem canvas_bounds (img : Image) (p : Vec2) (c : Color)
    (hwf : img.data.length = (img.size.x * img.size.y).toNat) :
    (img.out_of_range p = true → img.point p c = img ∧ img.get p = Color.BLACK)
  ∧ (img.out_of_range p = false → (img.point p c).get p = c) := by
  constructor
  · intro hoor
    exact ⟨by simp [Image.point, hoor], by simp [Image.get, hoor]⟩
  · intro hoor
    have h4 := hoor
    simp only [Image.out_of_range, Bool.or_eq_false_iff,
      decide_eq_false_iff_not, not_lt, not_le] at h4
    obtain ⟨⟨⟨hx0, hy0⟩, hx⟩, hy⟩ := h4
    have hlt : img.idx p < img.data.length := by
      have h1 := idx_lt_area hx0 hx hy0 hy
      simp only [Image.idx, hwf]
      exact h1
    simp only [Image.point, hoor, Bool.false_eq_true, if_false]
    have hoor2 : Image.out_of_range
        { img with data := img.data.set (img.idx p) c } p = false := by
      simpa [Image.out_of_range] using hoor
    simp only [Image.get, hoor2, Bool.false_eq_true, if_false]
    have hidx2 : Image.idx { img with data := img.data.set (img.idx p) c } p
        = img.idx p := rfl
    rw [hidx2, List.getD_eq_getElem?_getD, List.getElem?_set_self hlt]
    rfl

/-- Witness for canvas_bounds at a concrete canvas: the 2-by-2 black
canvas with a red point written at (1,1). -/
theorem canvas_bounds_witness :
    ((Image.new 2 2).point ⟨1, 1⟩ Color.RED).get ⟨1, 1⟩ = Color.RED :=
  (canvas_bounds (Image.new 2 2) ⟨1, 1⟩ Color.RED (by decide)).2 (by decide)

/-- Claim C4, amended: after resize(w,h) the canvas has size (w,h), and
an in-range read returns the old flat-array content when the flat index
falls below the old data length (Vec::resize keeps the prefix) and black
otherwise; previous content is therefore not discarded. -/
theorem resize_characterization (img : Image) (w h : Nat) (p : Vec2)
    (hx0 : 0 ≤ p.x) (hx : p.x < (w : Int)) (hy0 : 0 ≤ p.y) (hy : p.y < (h : Int)) :
    (img.resize w h).size = ⟨(w : Int), (h : Int)⟩
  ∧ (img.resize w h).get p
      = if (p.x + p.y * (w : Int)).toNat < img.data.length
        then img.data.getD (p.x + p.y * (w : Int)).toNat Color.BLACK
        else Color.BLACK := by
  refine ⟨rfl, ?_⟩
  have harea : (p.x + p.y * (w : Int)).toNat < w * h := by
    have h1 := idx_lt_area hx0 hx hy0 hy
    have h2 : ((w : Int) * (h : Int)).toNat = w * h := by
      rw [← Nat.cast_mul]
      exact Int.toNat_natCast _
    rw [h2] at h1
    exact h1
  have hoor : (img.resize w h).out_of_range p = false := by
    simp only [Image.resize, Image.out_of_range]
    simp [not_lt.mpr hx0, not_lt.mpr hy0, not_le.mpr hx, not_le.mpr hy]
  simp only [Image.get, hoor, Bool.false_eq_true, if_false]
  have hidx : (img.resize w h).idx p = (p.x + p.y * (w : Int)).toNat := by
    simp [Image.resize, Image.idx]
  rw [hidx]
  set n := (p.x + p.y * (w : Int)).toNat with hn
  simp only [Image.resize]
  by_cases hle : w * h ≤ img.data.length
  · simp only [hle, if_true]
    rw [List.getD_eq_getElem?_getD, List.getElem?_take]
    simp only [harea, if_true]
    by_cases hlen : n < img.data.length
    · simp [hlen, List.getD_eq_getElem?_getD]
    · have : img.data[n]? = none := by
        rw [List.getElem?_eq_none_iff]
        omega
      simp [hlen, this]
  · simp only [hle, if_false]
    rw [List.getD_eq_getElem?_getD, List.getElem?_append]
    by_cases hlen : n < img.data.length
    · simp [hlen, List.getD_eq_getElem?_getD]
    · have hrep : (List.replicate (w * h - img.data.length) Color.BLACK)[n - img.data.length]?
          = some Color.BLACK := by
        rw [List.getElem?_replicate, if_pos (by omega)]
      simp [hlen, hrep]

/-- Witness for resize_characterization: after writing white at (0,0) of
a 1-by-1 canvas and resizing to 2-by-1, the read at (0,0) matches the
preserved old content, white. -/
theorem resize_characterization_witness :
    ((((Image.new 1 1).point ⟨0, 0⟩ Color.WHITE).resize 2 1).size = ⟨2, 1⟩)
  ∧ ((((Image.new 1 1).point ⟨0, 0⟩ Color.WHITE).resize 2 1).get ⟨0, 0⟩
      = if ((0 : Int) + 0 * (2 : Int)).toNat
            < ((Image.new 1 1).point ⟨0, 0⟩ Color.WHITE).data.length
        then ((Image.new 1 1).point ⟨0, 0⟩ Color.WHITE).data.getD
          ((0 : Int) + 0 * (2 : Int)).toNat Color.BLACK
        else Color.BLACK) :=
  resize_characterization ((Image.new 1 1).point ⟨0, 0⟩ Color.WHITE) 2 1 ⟨0, 0⟩
    (by decide) (by decide) (by decide) (by decide)

/-- The listener state is unchanged by any event that is not a
ButtonPressed. -/
lemma listenStep_fst_of_not_press (mb : MouseButton) (e : InputEvent)
    (h : isPressEvent e = false) : (listenStep mb e).1 = mb := by
  cases e with
  | Key k => rfl
  | Unsupported u => rfl
  | Mouse m =>
    cases m with
    | ButtonPressed b p => simp [isPressEvent] at h
    | ButtonReleased b p => rfl
    | Hold b p => rfl

lemma listenRun_append (mb : MouseButton) (xs ys : List InputEvent) :
    listenRun mb (xs ++ ys)
      = listenRun mb xs ++ listenRun (listenFinal mb xs) ys := by
  induction xs generalizing mb with
  | nil => rfl
  | cons e es ih => simp [listenRun, listenFinal, ih]

lemma listenFinal_of_noPress (mb : MouseButton) (xs : List InputEvent)
    (h : ∀ e ∈ xs, isPressEvent e = false) : listenFinal mb xs = mb := by
  induction xs with
  | nil => rfl
  | cons e es ih =>
    rw [listenFinal, listenStep_fst_of_not_press mb e (h e (by simp))]
    exact ih (fun x hx => h x (by simp [hx]))

/-- Claim C2: last pressed button substitution.  After ButtonPressed
with the right button, and with no intervening ButtonPressed before the
hold and before the release, the listener publishes Hold and
ButtonReleased carrying the right button regardless of the buttons b1
and b2 the wire reported. -/
theorem mouse_button_memory (mb0 : MouseButton) (p0 p1 p2 : Vec2)
    (b1 b2 : MouseButton) (es1 es2 : List InputEvent)
    (h1 : ∀ e ∈ es1, isPressEvent e = false)
    (h2 : ∀ e ∈ es2, isPressEvent e = false) :
    listenRun mb0
        ((InputEvent.Mouse (.ButtonPressed .Right p0))
          :: (es1 ++ (InputEvent.Mouse (.Hold b1 p1))
          :: (es2 ++ [InputEvent.Mouse (.ButtonReleased b2 p2)])))
      = (InputEvent.Mouse (.ButtonPressed .Right p0))
          :: (listenRun .Right es1 ++ (InputEvent.Mouse (.Hold .Right p1))
          :: (listenRun .Right es2 ++ [InputEvent.Mouse (.ButtonReleased .Right p2)])) := by
  have hf1 := listenFinal_of_noPress MouseButton.Right es1 h1
  have hf2 := listenFinal_of_noPress MouseButton.Right es2 h2
  simp [listenRun, listenStep, listenRun_append, listenFinal, hf1, hf2]

/-- Witness for mouse_button_memory: wire reports Middle on the hold and
WheelUp on the release; the published events carry Right. -/
theorem mouse_button_memory_witness :
    listenRun .Left
        ((InputEvent.Mouse (.ButtonPressed .Right ⟨0, 0⟩))
          :: ([] ++ (InputEvent.Mouse (.Hold .Middle ⟨1, 1⟩))
          :: ([InputEvent.Key .Esc]
              ++ [InputEvent.Mouse (.ButtonReleased .WheelUp ⟨2, 2⟩)])))
      = (InputEvent.Mouse (.ButtonPressed .Right ⟨0, 0⟩))
          :: (listenRun .Right [] ++ (InputEvent.Mouse (.Hold .Right ⟨1, 1⟩))
          :: (listenRun .Right [InputEvent.Key .Esc]
              ++ [InputEvent.Mouse (.ButtonReleased .Right ⟨2, 2⟩)])) :=
  mouse_button_memory .Left ⟨0, 0⟩ ⟨1, 1⟩ ⟨2, 2⟩ .Middle .WheelUp [] [.Key .Esc]
    (by simp) (by decide)

/-- When the previous canvas is the current canvas, every cell passes
the unchanged-cell test and contributes no output. -/
lemma flushCells_self (screen : Image) (st : FlushState) (ps : List (Int × Int)) :
    (flushCells screen screen st ps).2 = [] := by
  induction ps generalizing st with
  | nil => rfl
  | cons hd tl ih =>
    obtain ⟨i, j⟩ := hd
    have hskip : skipTest screen screen ⟨i, j⟩ ⟨i, j + 1⟩ = true := by
      simp [skipTest]
    simp [flushCells, flushCell, hskip, ih]

/-- Claim C1: flush idempotence.  After one flush the previous canvas is
the current canvas; a second flush of the same unmutated canvas emits no
color-select escapes and no glyphs — its whole output is the single
cursor-home escape. -/
theorem flush_second_run_full_skip (sz : Vec2) (screen prevImg : Image)
    (fore back : Color) :
    ((flushFrame sz screen
        (flushFrame sz screen prevImg fore back).prev
        (flushFrame sz screen prevImg fore back).fore
        (flushFrame sz screen prevImg fore back).back).out.filter
      (fun o => o.isColorEsc || o.isGlyph)) = [] := by
  have hprev : (flushFrame sz screen prevImg fore back).prev = screen := rfl
  rw [hprev]
  simp [flushFrame, flushCells_self, OutItem.isColorEsc, OutItem.isGlyph]

/-- After the color update both cell colors belong to the active pair. -/
lemma colorUpdate_mem (s1 s2 fore back : Color) :
    (s1 = (colorUpdate s1 s2 fore back).2.1 ∨ s1 = (colorUpdate s1 s2 fore back).1)
  ∧ (s2 = (colorUpdate s1 s2 fore back).2.1 ∨ s2 = (colorUpdate s1 s2 fore back).1) := by
  unfold colorUpdate
  split_ifs with h1 h2 h3 h4 h5 <;> simp_all
  tauto

/-- The glyph chain matches whenever both cells belong to the pair. -/
lemma glyphFor_isSome (s1 s2 f b : Color)
    (h1 : s1 = b ∨ s1 = f) (h2 : s2 = b ∨ s2 = f) :
    (glyphFor s1 s2 f b).isSome = true := by
  unfold glyphFor
  split_ifs <;> simp_all
  tauto

/-- The escapes the color update emits contain no glyph item. -/
lemma colorUpdate_escs_no_glyph (s1 s2 fore back : Color) :
    ((colorUpdate s1 s2 fore back).2.2).filter OutItem.isGlyph = [] := by
  unfold colorUpdate
  split_ifs <;> rfl

/-- Claim C7: glyph classification is exhaustive.  A skipped cell emits
nothing; a non-skipped cell emits exactly one glyph, because after the
color update both cell colors are members of the active fore/back pair,
so one of the four glyph branches always fires. -/
theorem glyph_classification_exhaustive (screen prev : Image)
    (st : FlushState) (i j : Int) :
    (((flushCell screen prev st i j).2.filter OutItem.isGlyph).length
      = if skipTest screen prev ⟨i, j⟩ ⟨i, j + 1⟩ then 0 else 1)
  ∧ (screen.get ⟨i, j⟩
        = (colorUpdate (screen.get ⟨i, j⟩) (screen.get ⟨i, j + 1⟩) st.fore st.back).2.1
      ∨ screen.get ⟨i, j⟩
        = (colorUpdate (screen.get ⟨i, j⟩) (screen.get ⟨i, j + 1⟩) st.fore st.back).1)
  ∧ (screen.get ⟨i, j + 1⟩
        = (colorUpdate (screen.get ⟨i, j⟩) (screen.get ⟨i, j + 1⟩) st.fore st.back).2.1
      ∨ screen.get ⟨i, j + 1⟩
        = (colorUpdate (screen.get ⟨i, j⟩) (screen.get ⟨i, j + 1⟩) st.fore st.back).1) := by
  refine ⟨?_, (colorUpdate_mem _ _ _ _).1, (colorUpdate_mem _ _ _ _).2⟩
  by_cases hskip : skipTest screen prev ⟨i, j⟩ ⟨i, j + 1⟩
  · simp [flushCell, hskip]
  · have hmem := colorUpdate_mem (screen.get ⟨i, j⟩) (screen.get ⟨i, j + 1⟩)
      st.fore st.back
    have hsome := glyphFor_isSome (screen.get ⟨i, j⟩) (screen.get ⟨i, j + 1⟩)
      (colorUpdate (screen.get ⟨i, j⟩) (screen.get ⟨i, j + 1⟩) st.fore st.back).1
      (colorUpdate (screen.get ⟨i, j⟩) (screen.get ⟨i, j + 1⟩) st.fore st.back).2.1
      hmem.1 hmem.2
    obtain ⟨g, hg⟩ := Option.isSome_iff_exists.mp hsome
    simp [flushCell, hskip, List.filter_append, colorUpdate_escs_no_glyph, hg,
      OutItem.isGlyph]

lemma parse_csi_x10_no_unsupported (b1 b2 b3 : Nat) (u : List Nat) :
    parse_csi_x10 b1 b2 b3 ≠ .evt (.Unsupported u) := by
  intro h
  simp only [parse_csi_x10] at h
  repeat' split at h
  all_goals simp_all

lemma parse_csi_sgr_no_unsupported (buf : List Nat) (f : Nat) (u : List Nat) :
    parse_csi_sgr buf f ≠ .evt (.Unsupported u) := by
  intro h
  simp only [parse_csi_sgr] at h
  repeat' split at h
  all_goals simp_all

lemma parse_csi_rxvt_no_unsupported (buf : List Nat) (u : List Nat) :
    parse_csi_rxvt buf ≠ .evt (.Unsupported u) := by
  intro h
  simp only [parse_csi_rxvt] at h
  repeat' split at h
  all_goals simp_all

lemma special_key_code_no_unsupported (v : Nat) (u : List Nat) :
    special_key_code v ≠ .evt (.Unsupported u) := by
  intro h
  simp only [special_key_code] at h
  repeat' split at h
  all_goals simp_all

lemma tilde_keys_no_unsupported (vals : List Nat) (u : List Nat) :
    tilde_keys vals ≠ .evt (.Unsupported u) := by
  intro h
  simp only [tilde_keys] at h
  repeat' split at h
  all_goals first
    | exact special_key_code_no_unsupported _ u h
    | simp_all

lemma parse_csi_tilde_no_unsupported (buf : List Nat) (u : List Nat) :
    parse_csi_tilde buf ≠ .evt (.Unsupported u) := by
  intro h
  simp only [parse_csi_tilde] at h
  repeat' split at h
  all_goals first
    | exact tilde_keys_no_unsupported _ u h
    | simp_all

lemma parse_csi_numbered_no_unsupported (b : Nat) (rest : List Nat) (u : List Nat) :
    parse_csi_numbered b rest ≠ .evt (.Unsupported u) := by
  intro h
  simp only [parse_csi_numbered] at h
  repeat' split at h
  all_goals first
    | exact parse_csi_rxvt_no_unsupported _ u h
    | exact parse_csi_tilde_no_unsupported _ u h
    | simp_all

set_option maxHeartbeats 1000000 in
lemma parse_csi_no_unsupported (input : List Nat) (u : List Nat) :
    parse_csi input ≠ .evt (.Unsupported u) := by
  intro h
  cases input with
  | nil => simp [parse_csi] at h
  | cons b rest =>
    simp only [parse_csi] at h
    repeat' split at h
    all_goals first
      | exact parse_csi_x10_no_unsupported _ _ _ u h
      | exact parse_csi_sgr_no_unsupported _ _ u h
      | exact parse_csi_numbered_no_unsupported _ _ u h
      | simp_all

lemma parse_event_no_unsupported (item : Nat) (input : List Nat) (u : List Nat) :
    parse_event item input ≠ .ok (.Unsupported u) := by
  intro h
  simp only [parse_event] at h
  repeat' split at h
  all_goals first
    | (simp_all
       done)
    | (simp_all
       exact parse_csi_no_unsupported _ u (by assumption))

/-- Whether a decode result is a success carrying Unsupported. -/
def PResult.unsupportedOk : PResult → Bool
  | .ok (.Unsupported _) => true
  | _ => false

/-- Claim C10: for every first byte and every stream of subsequent
bytes, parse_event never succeeds with the Unsupported variant — every
success is a Key or Mouse event; unrecognized sequences surface only as
the err (or, for truncated streams, fatal) results. -/
theorem decoder_never_unsupported (item : Nat) (input : List Nat) :
    (parse_event item input).unsupportedOk = false := by
  cases hp : parse_event item input with
  | ok e =>
    cases e with
    | Key k => rfl
    | Mouse m => rfl
    | Unsupported u => exact absurd hp (parse_event_no_unsupported item input u)
  | err => rfl
  | fatal => rfl

end Termkan
